import Mathlib

/-!
# Meteorites & UFOs detection-bias pipeline: a shallow embedding

This file embeds the data model and the pure computational core of
`create_merge.py` (the merge script of the meteorites/UFOs detection-bias
study) in Lean 4 and proves the specified properties about it.

Modelling conventions:
* Python floats are modelled as exact rationals (`ℚ`); the decimal literals of
  the centroid table are exactly representable, and `round(x, 1)` is modelled
  as exact round-half-to-even on rationals.
* A possibly-missing JSON field is an `Option`; `m.get(k, default)` becomes
  `Option.getD`.  Python truthiness of a string is `s ≠ ""`.
* A Python `dict` is an association list onto which later writes are consed at
  the front, with lookup returning the first (i.e. most recent) binding; this
  realises the overwrite-on-duplicate-key semantics of `d[k] = v`.
* A `Counter` over a stream of keys is the list of produced keys; its count for
  a key is `List.count` and its key set is `List.dedup`.
* A run-time type error raised by Python (comparing `int` with `str`) is
  modelled with `Except Unit`, `.error ()` standing for the raised exception.
-/

/-- Lookup in an association list used as a dict: the first binding wins
(bindings are consed at the front, so this is the most recent write). -/
def dget {κ β : Type} [DecidableEq κ] (d : List (κ × β)) (k : κ) : Option β :=
  (d.find? (fun p => decide (p.1 = k))).map Prod.snd

/-- `list(d.keys())` of an association-list dict: the distinct keys. -/
def dkeys {κ β : Type} [DecidableEq κ] (d : List (κ × β)) : List κ :=
  (d.map Prod.fst).dedup

/-- One iteration of a loop that conditionally writes a key/value pair into a
dict: when `kv e` produces a binding it is consed (overwriting on lookup),
otherwise the entry is skipped. -/
def kvStep {α κ β : Type} (kv : α → Option (κ × β)) (acc : List (κ × β)) (e : α) :
    List (κ × β) :=
  match kv e with
  | some p => p :: acc
  | none => acc

/-- A loop over `l` writing `kv e` into an initially empty dict. -/
def kvFold {α κ β : Type} (kv : α → Option (κ × β)) (l : List α) : List (κ × β) :=
  l.foldl (kvStep kv) []

/-- The last element of `l` satisfying `p`, if any. -/
def lastPassing {α : Type} (p : α → Bool) : List α → Option α
  | [] => none
  | e :: l =>
    match lastPassing p l with
    | some x => some x
    | none => if p e then some e else none

/-- The value that the last entry of `l` writing key `k` writes (the dict
overwrite semantics: later entries win); `none` when no entry writes `k`. -/
def lastWrite {α κ β : Type} [DecidableEq κ] (kv : α → Option (κ × β))
    (l : List α) (k : κ) : Option β :=
  match lastPassing (fun e => decide ((kv e).map Prod.fst = some k)) l with
  | some e => (kv e).map Prod.snd
  | none => none

/-! ## The Geo-Classifier (`assign_us_state`) -/

/-- The fixed 48-entry state centroid table of `assign_us_state`, in source
iteration order (Python dicts iterate in insertion order). -/
def stateCentroids : List (String × ℚ × ℚ) := [
  ("CA", 36.78, -119.42), ("TX", 31.97, -99.90), ("FL", 27.66, -81.52),
  ("NY", 42.17, -74.95), ("PA", 41.20, -77.19), ("IL", 40.63, -89.40),
  ("OH", 40.42, -82.91), ("GA", 32.16, -82.90), ("NC", 35.76, -79.02),
  ("MI", 44.31, -85.60), ("NJ", 40.06, -74.41), ("VA", 37.43, -78.66),
  ("WA", 47.75, -120.74), ("AZ", 34.05, -111.09), ("MA", 42.41, -71.38),
  ("TN", 35.52, -86.58), ("IN", 40.27, -86.13), ("MO", 38.57, -92.60),
  ("MD", 39.05, -76.64), ("WI", 43.78, -88.79), ("CO", 39.55, -105.78),
  ("MN", 46.73, -94.69), ("SC", 34.00, -81.03), ("AL", 32.32, -86.90),
  ("LA", 30.98, -91.96), ("KY", 37.84, -84.27), ("OR", 43.80, -120.55),
  ("OK", 35.47, -97.52), ("CT", 41.60, -72.76), ("UT", 39.32, -111.09),
  ("IA", 41.88, -93.10), ("NV", 38.80, -116.42), ("AR", 35.20, -91.83),
  ("MS", 32.35, -89.40), ("KS", 38.53, -98.77), ("NM", 34.52, -105.87),
  ("NE", 41.49, -99.90), ("ID", 44.07, -114.74), ("WV", 38.60, -80.45),
  ("ME", 45.25, -69.45), ("MT", 46.88, -110.36), ("ND", 47.55, -101.00),
  ("SD", 43.97, -99.90), ("WY", 43.08, -107.29), ("VT", 44.56, -72.58),
  ("NH", 43.19, -71.57), ("DE", 38.91, -75.53), ("RI", 41.58, -71.48)]

/-- Squared Euclidean distance in (lat, lng) degree space:
`d = (lat - slat)**2 + (lng - slng)**2`. -/
def dist2 (la ln slat slng : ℚ) : ℚ :=
  (la - slat) ^ 2 + (ln - slng) ^ 2

/-- One iteration of the nearest-centroid scan: keep the running
`(closest, min_dist)` unless the current entry is strictly closer
(`if d < min_dist`).  The initial state `none` plays the role of
`min_dist = inf, closest = None`. -/
def bestStep (la ln : ℚ) (acc : Option (String × ℚ)) (e : String × ℚ × ℚ) :
    Option (String × ℚ) :=
  let d := dist2 la ln e.2.1 e.2.2
  match acc with
  | none => some (e.1, d)
  | some (c, md) => if d < md then some (e.1, d) else some (c, md)

/-- `assign_us_state(lat, lng)`: `None` if a coordinate is `None`, `None`
outside the open CONUS bounding box, otherwise the code of the
minimum-squared-distance centroid (first entry wins ties). -/
def assign_us_state (lat lng : Option ℚ) : Option String :=
  match lat, lng with
  | some la, some ln =>
    if 24.0 < la ∧ la < 50.0 ∧ -125.0 < ln ∧ ln < -66.0 then
      (stateCentroids.foldl (bestStep la ln) none).map Prod.fst
    else none
  | _, _ => none

/-! ## Meteorite records and date parsing -/

/-- An input meteorite record; every field may be missing or null. -/
structure Meteorite where
  name : Option String
  date : Option String
  latitude : Option ℚ
  longitude : Option ℚ
  mass_g : Option ℚ
  meteorite_class : Option String
  fall_type : Option String
deriving DecidableEq

/-- Numeric value of a list of decimal digit characters, as `int` parses it. -/
def digitsVal (cs : List Char) : ℕ :=
  cs.foldl (fun a c => 10 * a + (c.toNat - 48)) 0

/-- `int(date[:4])` guarded by `date and len(date) >= 4 and date[:4].isdigit()`
(ASCII digits; the inputs are ASCII date strings). `none` when the guard
fails. -/
def date4Year (date : String) : Option ℤ :=
  if date ≠ "" ∧ 4 ≤ date.length ∧ (date.toList.take 4).all Char.isDigit then
    some (digitsVal (date.toList.take 4))
  else none

/-- The year under which `build_temporal_comparison` counts a meteorite:
the 4-digit date prefix, restricted to `1900 <= year <= 2025`. -/
def metTimelineYear (m : Meteorite) : Option ℤ :=
  match date4Year (m.date.getD "") with
  | some y => if 1900 ≤ y ∧ y ≤ 2025 then some y else none
  | none => none

/-- `met_by_year`: the `Counter` of timeline years, as the list of years
produced by the counting loop (count = multiplicity, keys = distinct years). -/
def met_by_year (ms : List Meteorite) : List ℤ :=
  ms.filterMap metTimelineYear

/-! ## UFO-by-year entries and the temporal aggregator -/

/-- A JSON scalar that is either an integer or a string (the `year` field of a
UFO-by-year entry may be an integer or a numeric string). -/
inductive JsonVal where
  | int (n : ℤ)
  | str (s : String)
deriving DecidableEq

/-- An input UFO-by-year entry. -/
structure UfoYearEntry where
  year : Option JsonVal
  count : Option ℤ
deriving DecidableEq

/-- The key/value pair an UFO-by-year entry writes into `ufo_years` when it
passes `if year and 1900 <= year <= 2025` with an integer year. -/
def ufoYearKV (e : UfoYearEntry) : Option (ℤ × ℤ) :=
  match e.year with
  | some (.int n) =>
    if ¬n = 0 ∧ 1900 ≤ n ∧ n ≤ 2025 then some (n, e.count.getD 0) else none
  | _ => none

/-- One iteration of the `ufo_years` loop.  A missing year and the integer `0`
are falsy and are skipped; an integer year is range-checked and written; a
nonempty string year is truthy and reaches `1900 <= year`, which raises
`TypeError` in Python (modelled as `.error ()`). -/
def ufoYearStep (acc : List (ℤ × ℤ)) (e : UfoYearEntry) : Except Unit (List (ℤ × ℤ)) :=
  match e.year with
  | none => .ok acc
  | some (.int n) =>
    if ¬n = 0 ∧ 1900 ≤ n ∧ n ≤ 2025 then .ok ((n, e.count.getD 0) :: acc) else .ok acc
  | some (.str s) => if s = "" then .ok acc else .error ()

/-- The `ufo_years` dict built by the loop over the UFO-by-year source. -/
def ufo_years (l : List UfoYearEntry) : Except Unit (List (ℤ × ℤ)) :=
  l.foldlM ufoYearStep []

/-- One row of the output timeline. -/
structure TimelineEntry where
  year : ℤ
  meteorite_falls : ℕ
  ufo_sightings : ℤ
deriving DecidableEq

/-- `build_temporal_comparison(meteorites, ufo_by_year)`:
`all_years = sorted(set(list(met_by_year.keys()) + list(ufo_years.keys())))`,
one timeline row per year with `met_by_year.get(year, 0)` and
`ufo_years.get(year, 0)`. -/
def build_temporal_comparison (ms : List Meteorite) (ufos : List UfoYearEntry) :
    Except Unit (List TimelineEntry) :=
  match ufo_years ufos with
  | .error e => .error e
  | .ok uy =>
    let all_years :=
      ((met_by_year ms).dedup ++ dkeys uy).dedup.mergeSort (fun a b => decide (a ≤ b))
    .ok (all_years.map (fun y =>
      ⟨y, (met_by_year ms).count y, (dget uy y).getD 0⟩))

/-! ## UFO-by-state entries and the geographic aggregator -/

/-- An input UFO-by-state entry. -/
structure UfoStateEntry where
  state : Option String
  count : Option ℤ
deriving DecidableEq

/-- The key/value pair an UFO-by-state entry writes into `ufo_states` when it
passes `if state and len(state) == 2`. -/
def ufoStateKV (e : UfoStateEntry) : Option (String × ℤ) :=
  if e.state.getD "" ≠ "" ∧ (e.state.getD "").length = 2 then
    some (e.state.getD "", e.count.getD 0)
  else none

/-- The `ufo_states` dict built by the loop over the UFO-by-state source. -/
def ufo_states (l : List UfoStateEntry) : List (String × ℤ) :=
  kvFold ufoStateKV l

/-- The state a meteorite is counted under by `build_geographic_comparison`:
the classifier result, kept when truthy (`if state:`). -/
def classifiedState (m : Meteorite) : Option String :=
  match assign_us_state m.latitude m.longitude with
  | some s => if s ≠ "" then some s else none
  | none => none

/-- `met_by_state`: the `Counter` of classified states, as the list of states
produced by the counting loop.  Its length is the `us_meteorites` total, which
is incremented by the same loop. -/
def met_by_state (ms : List Meteorite) : List String :=
  ms.filterMap classifiedState

/-- Round-half-to-even to an integer, as Python's `round` (the model treats
the float division exactly, as a rational). -/
def pyRound (q : ℚ) : ℤ :=
  if q - (⌊q⌋ : ℚ) < 1 / 2 then ⌊q⌋
  else if 1 / 2 < q - (⌊q⌋ : ℚ) then ⌊q⌋ + 1
  else if ⌊q⌋ % 2 = 0 then ⌊q⌋ else ⌊q⌋ + 1

/-- `round(x, 1)`: round to one decimal place. -/
def round1 (q : ℚ) : ℚ :=
  (pyRound (10 * q) : ℚ) / 10

/-- One row of the output state table. -/
structure StateComparisonEntry where
  state : String
  meteorite_falls : ℕ
  ufo_sightings : ℤ
  ufo_per_meteorite : Option ℚ
deriving DecidableEq

/-- `build_geographic_comparison(meteorites, ufo_by_state)`: the state table
(outer join over the state codes of both sides, `ratio = round(ufo / met, 1)
if met > 0 else None`) together with the `us_meteorites` running total. -/
def build_geographic_comparison (ms : List Meteorite) (ufos : List UfoStateEntry) :
    List StateComparisonEntry × ℕ :=
  let mbs := met_by_state ms
  let us := ufo_states ufos
  let all_states := (mbs.dedup ++ dkeys us).dedup.mergeSort (fun a b => decide (a ≤ b))
  (all_states.map (fun s =>
      let met := mbs.count s
      let ufo := (dget us s).getD 0
      ⟨s, met, ufo, if 0 < met then some (round1 ((ufo : ℚ) / (met : ℚ))) else none⟩),
   mbs.length)

/-! ## The detail builder and the assembled dataset -/

/-- One output meteorite detail record. -/
structure MeteoriteDetailRecord where
  name : Option String
  latitude : Option ℚ
  longitude : Option ℚ
  date : Option String
  year : Option ℤ
  mass_g : Option ℚ
  meteorite_class : Option String
  fall_type : Option String
  us_state : Option String
  is_us : Bool
deriving DecidableEq

/-- The detail record built from one input meteorite: original fields passed
through, `date if date else None`, the 4-digit-prefix year with no range
filter, the classifier state, and `is_us = state is not None`. -/
def detailRecord (m : Meteorite) : MeteoriteDetailRecord :=
  let date := m.date.getD ""
  let state := assign_us_state m.latitude m.longitude
  ⟨m.name, m.latitude, m.longitude, if date ≠ "" then some date else none,
   date4Year date, m.mass_g, m.meteorite_class, m.fall_type, state, state.isSome⟩

/-- `build_meteorite_detail(meteorites)`: one record per input, in order. -/
def build_meteorite_detail (ms : List Meteorite) : List MeteoriteDetailRecord :=
  ms.map detailRecord

/-- The `record_counts` block of the output metadata. -/
structure RecordCounts where
  temporal_comparison : ℕ
  state_comparison : ℕ
  meteorite_detail : ℕ
deriving DecidableEq

/-- The computational content of the assembled `dataset` document of `main`
(the constant title/description strings, the creation date and the source
provenance block carry no computed structure and are omitted). -/
structure Dataset where
  record_counts : RecordCounts
  temporal_comparison : List TimelineEntry
  state_comparison : List StateComparisonEntry
  meteorite_detail : List MeteoriteDetailRecord

/-- The dataset assembly of `main`: the three views plus their lengths in
`metadata.record_counts`. -/
def assemble_dataset (ms : List Meteorite) (uyl : List UfoYearEntry)
    (usl : List UfoStateEntry) : Except Unit Dataset :=
  match build_temporal_comparison ms uyl with
  | .error e => .error e
  | .ok timeline =>
    let sd := build_geographic_comparison ms usl
    let detail := build_meteorite_detail ms
    .ok ⟨⟨timeline.length, sd.1.length, detail.length⟩, timeline, sd.1, detail⟩

/-! ## Lemmas about the nearest-centroid scan -/

theorem dist2_nonneg (la ln a b : ℚ) : 0 ≤ dist2 la ln a b := by
  unfold dist2; positivity

theorem dist2_eq_zero_iff (la ln a b : ℚ) : dist2 la ln a b = 0 ↔ la = a ∧ ln = b := by
  unfold dist2
  constructor
  · intro h
    have h1 : (la - a) ^ 2 = 0 := by nlinarith [sq_nonneg (la - a), sq_nonneg (ln - b)]
    have h2 : (ln - b) ^ 2 = 0 := by nlinarith [sq_nonneg (la - a), sq_nonneg (ln - b)]
    exact ⟨sub_eq_zero.mp (pow_eq_zero_iff two_ne_zero |>.mp h1),
           sub_eq_zero.mp (pow_eq_zero_iff two_ne_zero |>.mp h2)⟩
  · rintro ⟨rfl, rfl⟩; ring

/-- The running-minimum scan started at `(c, d)` ends at a pair `(c', d')`
that is either the start (when nothing in `l` beats `d`) or the first element
of `l` strictly beating `d` and everything before it, and beaten by nothing
after it. -/
theorem bestStep_foldl_some (la ln : ℚ) (l : List (String × ℚ × ℚ)) :
    ∀ (c : String) (d : ℚ),
      ∃ c' d', l.foldl (bestStep la ln) (some (c, d)) = some (c', d') ∧
        ((c' = c ∧ d' = d ∧ ∀ x ∈ l, d ≤ dist2 la ln x.2.1 x.2.2) ∨
         (∃ l1 e l2, l = l1 ++ e :: l2 ∧ c' = e.1 ∧ d' = dist2 la ln e.2.1 e.2.2 ∧
           d' < d ∧ (∀ x ∈ l1, d' < dist2 la ln x.2.1 x.2.2) ∧
           (∀ x ∈ l2, d' ≤ dist2 la ln x.2.1 x.2.2))) := by
  induction l with
  | nil =>
    intro c d
    exact ⟨c, d, rfl, Or.inl ⟨rfl, rfl, by simp⟩⟩
  | cons x xs ih =>
    intro c d
    by_cases hx : dist2 la ln x.2.1 x.2.2 < d
    · have hstep : bestStep la ln (some (c, d)) x = some (x.1, dist2 la ln x.2.1 x.2.2) := by
        simp [bestStep, hx]
      rw [List.foldl_cons, hstep]
      obtain ⟨c', d', hfold, hcase⟩ := ih x.1 (dist2 la ln x.2.1 x.2.2)
      refine ⟨c', d', hfold, Or.inr ?_⟩
      rcases hcase with ⟨hc, hd, hall⟩ | ⟨l1, e, l2, heq, hc, hd, hlt, h1, h2⟩
      · exact ⟨[], x, xs, rfl, hc, hd, hd ▸ hx, by simp,
          fun y hy => hd ▸ hall y hy⟩
      · refine ⟨x :: l1, e, l2, by simp [heq], hc, hd, hlt.trans hx, ?_, h2⟩
        intro y hy
        rcases List.mem_cons.mp hy with rfl | hy'
        · exact hlt
        · exact h1 y hy'
    · have hstep : bestStep la ln (some (c, d)) x = some (c, d) := by
        simp [bestStep, hx]
      rw [List.foldl_cons, hstep]
      obtain ⟨c', d', hfold, hcase⟩ := ih c d
      refine ⟨c', d', hfold, ?_⟩
      rcases hcase with ⟨hc, hd, hall⟩ | ⟨l1, e, l2, heq, hc, hd, hlt, h1, h2⟩
      · refine Or.inl ⟨hc, hd, ?_⟩
        intro y hy
        rcases List.mem_cons.mp hy with rfl | hy'
        · exact le_of_not_lt hx
        · exact hall y hy'
      · refine Or.inr ⟨x :: l1, e, l2, by simp [heq], hc, hd, hlt, ?_, h2⟩
        intro y hy
        rcases List.mem_cons.mp hy with rfl | hy'
        · exact hlt.trans_le (le_of_not_lt hx)
        · exact h1 y hy'

/-- Inside the bounding box the classifier returns the code of the centroid at
minimum squared distance, ties resolving to the entry that comes first in the
table: the winning entry beats everything strictly before it and is not beaten
by anything. -/
theorem assign_inside (la ln : ℚ)
    (hbox : 24.0 < la ∧ la < 50.0 ∧ -125.0 < ln ∧ ln < -66.0) :
    ∃ l1 e l2, stateCentroids = l1 ++ e :: l2 ∧
      assign_us_state (some la) (some ln) = some e.1 ∧
      (∀ x ∈ l1, dist2 la ln e.2.1 e.2.2 < dist2 la ln x.2.1 x.2.2) ∧
      (∀ x ∈ stateCentroids, dist2 la ln e.2.1 e.2.2 ≤ dist2 la ln x.2.1 x.2.2) := by
  obtain ⟨h0, t0, hsc⟩ : ∃ h t, stateCentroids = h :: t := ⟨_, _, rfl⟩
  have hassign : assign_us_state (some la) (some ln) =
      (stateCentroids.foldl (bestStep la ln) none).map Prod.fst := by
    simp [assign_us_state, hbox]
  have hfirst : stateCentroids.foldl (bestStep la ln) none =
      t0.foldl (bestStep la ln) (some (h0.1, dist2 la ln h0.2.1 h0.2.2)) := by
    rw [hsc]; rfl
  obtain ⟨c', d', hfold, hcase⟩ :=
    bestStep_foldl_some la ln t0 h0.1 (dist2 la ln h0.2.1 h0.2.2)
  have hres : assign_us_state (some la) (some ln) = some c' := by
    rw [hassign, hfirst, hfold]; rfl
  rcases hcase with ⟨hc, hd, hall⟩ | ⟨l1, e, l2, heq, hc, hd, hlt, h1, h2⟩
  · refine ⟨[], h0, t0, by simp [hsc], by rw [hres, hc], by simp, ?_⟩
    intro x hx
    rw [hsc] at hx
    rcases List.mem_cons.mp hx with rfl | hx'
    · exact le_refl _
    · exact hd ▸ hall x hx'
  · refine ⟨h0 :: l1, e, l2, by simp [hsc, heq], by rw [hres, hc], ?_, ?_⟩
    · intro x hx
      rcases List.mem_cons.mp hx with rfl | hx'
      · exact hd ▸ hlt
      · exact hd ▸ h1 x hx'
    · intro x hx
      rw [hsc, heq] at hx
      rcases List.mem_cons.mp hx with rfl | hx'
      · exact hd ▸ le_of_lt hlt
      · rcases List.mem_append.mp hx' with hx1 | hx2
        · exact hd ▸ le_of_lt (h1 x hx1)
        · rcases List.mem_cons.mp hx2 with rfl | hx3
          · exact le_refl _
          · exact hd ▸ h2 x hx3

set_option maxHeartbeats 1000000 in
/-- Every centroid of the table lies strictly inside the bounding box. -/
theorem centroids_in_box :
    ∀ e ∈ stateCentroids,
      24.0 < e.2.1 ∧ e.2.1 < 50.0 ∧ -125.0 < e.2.2 ∧ e.2.2 < -66.0 := by
  norm_num [stateCentroids, List.forall_mem_cons]

set_option maxHeartbeats 2000000 in
/-- The 48 centroid latitudes are pairwise distinct (so a centroid is uniquely
identified by its latitude, a fortiori by its coordinate pair). -/
theorem lat_pairwise : stateCentroids.Pairwise (fun x y => x.2.1 ≠ y.2.1) := by
  simp only [stateCentroids, List.pairwise_cons, List.mem_cons, List.not_mem_nil,
    or_false, forall_eq_or_imp, forall_eq, List.Pairwise.nil, and_true]
  norm_num

/-- An element of the table that shares its latitude with the element at a
fixed split position is that element. -/
theorem centroid_eq_of_lat_eq {l1 l2 : List (String × ℚ × ℚ)} {w e : String × ℚ × ℚ}
    (hsc : stateCentroids = l1 ++ w :: l2) (he : e ∈ stateCentroids)
    (hlat : e.2.1 = w.2.1) : e = w := by
  have hpw := lat_pairwise
  rw [hsc] at hpw he
  rw [List.pairwise_append] at hpw
  obtain ⟨hp1, hp2, hp12⟩ := hpw
  rcases List.mem_append.mp he with he1 | he2
  · exact absurd hlat (hp12 e he1 w (List.mem_cons_self _ _))
  · rcases List.mem_cons.mp he2 with rfl | he3
    · rfl
    · exact absurd hlat.symm ((List.pairwise_cons.mp hp2).1 e he3)

/-- A state code returned by the classifier is a code of the table. -/
theorem assign_some_mem (lat lng : Option ℚ) (s : String)
    (h : assign_us_state lat lng = some s) : s ∈ stateCentroids.map Prod.fst := by
  match lat, lng with
  | none, _ => simp [assign_us_state] at h
  | some la, none => simp [assign_us_state] at h
  | some la, some ln =>
    by_cases hbox : 24.0 < la ∧ la < 50.0 ∧ -125.0 < ln ∧ ln < -66.0
    · obtain ⟨l1, e, l2, hsc, ha, _, _⟩ := assign_inside la ln hbox
      have hs : s = e.1 := by
        have := ha.symm.trans h
        exact (Option.some.injEq _ _ ▸ this).symm
      rw [hs, hsc]
      exact List.mem_map_of_mem _ (by simp)
    · simp [assign_us_state, hbox] at h

/-- C2.  The classifier returns null iff a coordinate is null or the point is
outside the open bounding box `24 < lat < 50`, `-125 < lng < -66`; on any
in-box point with both coordinates present it returns the code of the entry of
minimum squared Euclidean distance in degree space, a tie going to the entry
occurring first in the fixed table iteration order (the winner beats every
entry strictly before it and is not beaten by any entry). -/
theorem assign_us_state_spec (lat lng : Option ℚ) :
    (assign_us_state lat lng = none ↔
      lat = none ∨ lng = none ∨ ∃ la ln, lat = some la ∧ lng = some ln ∧
        ¬(24.0 < la ∧ la < 50.0 ∧ -125.0 < ln ∧ ln < -66.0)) ∧
    (∀ la ln, lat = some la → lng = some ln →
      (24.0 < la ∧ la < 50.0 ∧ -125.0 < ln ∧ ln < -66.0) →
      ∃ l1 e l2, stateCentroids = l1 ++ e :: l2 ∧
        assign_us_state lat lng = some e.1 ∧
        (∀ x ∈ l1, dist2 la ln e.2.1 e.2.2 < dist2 la ln x.2.1 x.2.2) ∧
        (∀ x ∈ stateCentroids, dist2 la ln e.2.1 e.2.2 ≤ dist2 la ln x.2.1 x.2.2)) := by
  constructor
  · match lat, lng with
    | none, _ => simp [assign_us_state]
    | some la, none => simp [assign_us_state]
    | some la, some ln =>
      by_cases hbox : 24.0 < la ∧ la < 50.0 ∧ -125.0 < ln ∧ ln < -66.0
      · obtain ⟨l1, e, l2, _, ha, _, _⟩ := assign_inside la ln hbox
        rw [ha]
        simp [hbox]
      · have hnone : assign_us_state (some la) (some ln) = none := by
          simp [assign_us_state, hbox]
        rw [hnone]
        exact iff_of_true rfl (Or.inr (Or.inr ⟨la, ln, rfl, rfl, hbox⟩))
  · intro la ln hla hln hbox
    subst hla; subst hln
    exact assign_inside la ln hbox

/-- Witness for C2: the spec applied to the in-box point (36.78, -119.42). -/
theorem assign_us_state_spec_witness :
    ∃ l1 e l2, stateCentroids = l1 ++ e :: l2 ∧
      assign_us_state (some 36.78) (some (-119.42)) = some e.1 ∧
      (∀ x ∈ l1, dist2 36.78 (-119.42) e.2.1 e.2.2 < dist2 36.78 (-119.42) x.2.1 x.2.2) ∧
      (∀ x ∈ stateCentroids,
        dist2 36.78 (-119.42) e.2.1 e.2.2 ≤ dist2 36.78 (-119.42) x.2.1 x.2.2) :=
  (assign_us_state_spec (some 36.78) (some (-119.42))).2 36.78 (-119.42) rfl rfl
    (by norm_num)

/-- The 48 contiguous-US state codes, in table order. -/
def contiguousStateCodes : List String :=
  ["CA", "TX", "FL", "NY", "PA", "IL", "OH", "GA", "NC", "MI", "NJ", "VA",
   "WA", "AZ", "MA", "TN", "IN", "MO", "MD", "WI", "CO", "MN", "SC", "AL",
   "LA", "KY", "OR", "OK", "CT", "UT", "IA", "NV", "AR", "MS", "KS", "NM",
   "NE", "ID", "WV", "ME", "MT", "ND", "SD", "WY", "VT", "NH", "DE", "RI"]

/-- C6.  The centroid table's codes are exactly the 48 contiguous-US state
codes (48 of them, no duplicates, no Alaska/Hawaii/territory codes), and on
every in-box coordinate pair the classifier resolves to some code of the
table, never to null. -/
theorem centroid_table_spec :
    stateCentroids.map Prod.fst = contiguousStateCodes ∧
    contiguousStateCodes.Nodup ∧
    contiguousStateCodes.length = 48 ∧
    "AK" ∉ contiguousStateCodes ∧ "HI" ∉ contiguousStateCodes ∧
    "DC" ∉ contiguousStateCodes ∧ "PR" ∉ contiguousStateCodes ∧
    ∀ la ln : ℚ, 24.0 < la ∧ la < 50.0 ∧ -125.0 < ln ∧ ln < -66.0 →
      ∃ s ∈ stateCentroids.map Prod.fst, assign_us_state (some la) (some ln) = some s := by
  refine ⟨rfl, by decide, by decide, by decide, by decide, by decide, by decide, ?_⟩
  intro la ln hbox
  obtain ⟨l1, e, l2, hsc, ha, _, _⟩ := assign_inside la ln hbox
  exact ⟨e.1, by rw [hsc]; exact List.mem_map_of_mem _ (by simp), ha⟩

/-- Witness for C6: the in-box point (40, -100) resolves to a listed code. -/
theorem centroid_table_spec_witness :
    ∃ s ∈ stateCentroids.map Prod.fst, assign_us_state (some 40) (some (-100)) = some s :=
  centroid_table_spec.2.2.2.2.2.2.2 40 (-100) (by norm_num)

/-- C7.  Outside the bounding box the classifier always returns null, and at
exactly a listed centroid it returns that centroid's own state code. -/
theorem assign_boundary_spec :
    (∀ la ln : ℚ, ¬(24.0 < la ∧ la < 50.0 ∧ -125.0 < ln ∧ ln < -66.0) →
      assign_us_state (some la) (some ln) = none) ∧
    (∀ e ∈ stateCentroids, assign_us_state (some e.2.1) (some e.2.2) = some e.1) := by
  constructor
  · intro la ln h
    simp [assign_us_state, h]
  · intro e he
    have hbox := centroids_in_box e he
    obtain ⟨l1, w, l2, hsc, ha, _, hmin⟩ := assign_inside e.2.1 e.2.2 hbox
    have h0 : dist2 e.2.1 e.2.2 e.2.1 e.2.2 = 0 := by unfold dist2; ring
    have hw0 : dist2 e.2.1 e.2.2 w.2.1 w.2.2 = 0 :=
      le_antisymm (h0 ▸ hmin e he) (dist2_nonneg _ _ _ _)
    have hlat : e.2.1 = w.2.1 := ((dist2_eq_zero_iff _ _ _ _).mp hw0).1
    have hew : e = w := centroid_eq_of_lat_eq hsc he hlat
    rw [ha, hew]

/-- Witness for C7: (60, -100) is out of box and maps to null; the CA centroid
maps to "CA". -/
theorem assign_boundary_spec_witness :
    assign_us_state (some 60) (some (-100)) = none ∧
    assign_us_state (some 36.78) (some (-119.42)) = some "CA" :=
  ⟨assign_boundary_spec.1 60 (-100) (by norm_num),
   assign_boundary_spec.2 ("CA", 36.78, -119.42) (List.mem_cons_self _ _)⟩

/-! ## Lemmas about dicts built by conditional-write loops -/

theorem dget_cons {κ β : Type} [DecidableEq κ] (p : κ × β) (d : List (κ × β)) (k : κ) :
    dget (p :: d) k = if p.1 = k then some p.2 else dget d k := by
  by_cases h : p.1 = k <;> simp [dget, List.find?, h]

theorem lastPassing_some {α : Type} {p : α → Bool} :
    ∀ {l : List α} {x : α}, lastPassing p l = some x → x ∈ l ∧ p x = true := by
  intro l
  induction l with
  | nil => intro x h; simp [lastPassing] at h
  | cons e l ih =>
    intro x h
    simp only [lastPassing] at h
    cases hlp : lastPassing p l with
    | some y =>
      rw [hlp] at h
      obtain rfl : y = x := by injection h
      exact ⟨List.mem_cons_of_mem _ (ih hlp).1, (ih hlp).2⟩
    | none =>
      rw [hlp] at h
      by_cases hpe : p e
      · rw [if_pos hpe] at h
        obtain rfl : e = x := by injection h
        exact ⟨List.mem_cons_self _ _, hpe⟩
      · rw [if_neg hpe] at h
        cases h

theorem lastPassing_eq_none_iff {α : Type} (p : α → Bool) (l : List α) :
    lastPassing p l = none ↔ ∀ e ∈ l, ¬p e = true := by
  induction l with
  | nil => simp [lastPassing]
  | cons e l ih =>
    constructor
    · intro h x hx
      simp only [lastPassing] at h
      cases hlp : lastPassing p l with
      | some y => rw [hlp] at h; cases h
      | none =>
        rw [hlp] at h
        rcases List.mem_cons.mp hx with rfl | hm
        · intro hp; rw [if_pos hp] at h; cases h
        · exact (ih.mp hlp) x hm
    · intro h
      simp only [lastPassing]
      rw [ih.mpr fun x hx => h x (List.mem_cons_of_mem _ hx)]
      rw [if_neg (h e (List.mem_cons_self _ _))]

/-- The dict built by a conditional-write loop from `acc` answers a lookup
with the value of the last entry of `l` that writes key `k`, falling back to
`acc`. -/
theorem kvFold_acc_dget {α κ β : Type} [DecidableEq κ] (kv : α → Option (κ × β)) (k : κ) :
    ∀ (l : List α) (acc : List (κ × β)),
      dget (l.foldl (kvStep kv) acc) k =
        match lastPassing (fun e => decide ((kv e).map Prod.fst = some k)) l with
        | some e => (kv e).map Prod.snd
        | none => dget acc k := by
  intro l
  induction l with
  | nil => intro acc; rfl
  | cons e l ih =>
    intro acc
    rw [List.foldl_cons, ih]
    cases hlp : lastPassing (fun e => decide ((kv e).map Prod.fst = some k)) l with
    | some x => simp [lastPassing, hlp]
    | none =>
      simp only [lastPassing, hlp]
      by_cases hpe : (kv e).map Prod.fst = some k
      · rw [if_pos (by simpa using hpe)]
        show dget (kvStep kv acc e) k = (kv e).map Prod.snd
        cases hkv : kv e with
        | none => rw [hkv] at hpe; simp at hpe
        | some pr =>
          rw [hkv] at hpe
          have hpk : pr.1 = k := by simpa using hpe
          simp [kvStep, hkv, dget_cons, hpk]
      · rw [if_neg (by simpa using hpe)]
        show dget (kvStep kv acc e) k = dget acc k
        cases hkv : kv e with
        | none => simp [kvStep, hkv]
        | some pr =>
          have hpk : ¬pr.1 = k := by
            intro hc
            exact hpe (by simp [hkv, hc])
          simp [kvStep, hkv, dget_cons, hpk]

/-- Lookup in a loop-built dict is the value written by the last entry that
writes the key, or `none` when no entry writes it. -/
theorem kvFold_dget {α κ β : Type} [DecidableEq κ] (kv : α → Option (κ × β))
    (l : List α) (k : κ) :
    dget (kvFold kv l) k = lastWrite kv l k := by
  rw [kvFold, kvFold_acc_dget, lastWrite]
  cases lastPassing (fun e => decide ((kv e).map Prod.fst = some k)) l <;> rfl

theorem dget_eq_none_iff {κ β : Type} [DecidableEq κ] (d : List (κ × β)) (k : κ) :
    dget d k = none ↔ k ∉ d.map Prod.fst := by
  have hfind : dget d k = none ↔ d.find? (fun p => decide (p.1 = k)) = none := by
    unfold dget
    cases d.find? (fun p => decide (p.1 = k)) <;> simp
  rw [hfind, List.find?_eq_none]
  constructor
  · intro h hmem
    obtain ⟨x, hx, hk⟩ := List.mem_map.mp hmem
    exact h x hx (by simp [hk])
  · intro h x hx hk
    rw [decide_eq_true_eq] at hk
    exact h (List.mem_map.mpr ⟨x, hx, hk⟩)

/-- A key is in a loop-built dict iff some entry of the loop writes it. -/
theorem kvFold_mem_keys {α κ β : Type} [DecidableEq κ] (kv : α → Option (κ × β))
    (l : List α) (k : κ) :
    k ∈ (kvFold kv l).map Prod.fst ↔ ∃ e ∈ l, (kv e).map Prod.fst = some k := by
  constructor
  · intro hmem
    have hne : dget (kvFold kv l) k ≠ none := by
      intro h0
      exact (dget_eq_none_iff _ _).mp h0 hmem
    rw [kvFold_dget, lastWrite] at hne
    cases hlp : lastPassing (fun e => decide ((kv e).map Prod.fst = some k)) l with
    | none => rw [hlp] at hne; exact absurd rfl hne
    | some x =>
      obtain ⟨hm, hp⟩ := lastPassing_some hlp
      rw [decide_eq_true_eq] at hp
      exact ⟨x, hm, hp⟩
  · rintro ⟨e, he, hke⟩
    by_contra hmem
    have h0 : dget (kvFold kv l) k = none := (dget_eq_none_iff _ _).mpr hmem
    cases hlp : lastPassing (fun e => decide ((kv e).map Prod.fst = some k)) l with
    | some x =>
      obtain ⟨_, hp⟩ := lastPassing_some hlp
      rw [decide_eq_true_eq] at hp
      have hval : dget (kvFold kv l) k = (kv x).map Prod.snd := by
        rw [kvFold_dget, lastWrite, hlp]
      rw [hval] at h0
      cases hkv : kv x with
      | none => rw [hkv] at hp; simp at hp
      | some pr => rw [hkv] at h0; simp at h0
    | none =>
      exact (lastPassing_eq_none_iff _ _).mp hlp e he (by simp [hke])

/-- A loop step that does not raise produces exactly the conditional dict
write of `ufoYearKV`. -/
theorem ufoYearStep_ok (acc : List (ℤ × ℤ)) (e : UfoYearEntry) (d : List (ℤ × ℤ))
    (h : ufoYearStep acc e = .ok d) : d = kvStep ufoYearKV acc e := by
  cases he : e.year with
  | none =>
    rw [ufoYearStep, he] at h
    injection h with h'
    simp [kvStep, ufoYearKV, he, ← h']
  | some jv =>
    cases jv with
    | int n =>
      by_cases hn : ¬n = 0 ∧ 1900 ≤ n ∧ n ≤ 2025
      · simp only [ufoYearStep, he] at h
        rw [if_pos hn] at h
        injection h with h'
        simp [kvStep, ufoYearKV, he, hn, ← h']
      · simp only [ufoYearStep, he] at h
        rw [if_neg hn] at h
        injection h with h'
        simp [kvStep, ufoYearKV, he, hn, ← h']
    | str s =>
      by_cases hs : s = ""
      · simp only [ufoYearStep, he] at h
        rw [if_pos hs] at h
        injection h with h'
        simp [kvStep, ufoYearKV, he, ← h']
      · simp only [ufoYearStep, he] at h
        rw [if_neg hs] at h
        cases h

theorem ufo_years_aux :
    ∀ (l : List UfoYearEntry) (acc d : List (ℤ × ℤ)),
      l.foldlM ufoYearStep acc = .ok d → d = l.foldl (kvStep ufoYearKV) acc := by
  intro l
  induction l with
  | nil =>
    intro acc d h
    injection h with h'
    exact h'.symm
  | cons e l ih =>
    intro acc d h
    rw [List.foldlM_cons] at h
    cases hx : ufoYearStep acc e with
    | error u =>
      rw [hx] at h
      simp [Bind.bind, Except.bind] at h
    | ok a =>
      rw [hx] at h
      simp only [Bind.bind, Except.bind] at h
      rw [List.foldl_cons, ← ufoYearStep_ok acc e a hx]
      exact ih a d h

/-- When the `ufo_years` loop completes without raising, the dict it builds is
the conditional-write fold of `ufoYearKV`. -/
theorem ufo_years_ok {l : List UfoYearEntry} {d : List (ℤ × ℤ)}
    (h : ufo_years l = .ok d) : d = kvFold ufoYearKV l :=
  ufo_years_aux l [] d h

/-- The `Counter` count of a timeline year is the number of meteorites whose
date parses to that year. -/
theorem met_count (ms : List Meteorite) (y : ℤ) :
    (met_by_year ms).count y = ms.countP (fun m => decide (metTimelineYear m = some y)) := by
  induction ms with
  | nil => rfl
  | cons m ms ih =>
    rw [met_by_year, List.filterMap_cons, List.countP_cons]
    rw [met_by_year] at ih
    cases hm : metTimelineYear m with
    | none => simp [hm, ih]
    | some z =>
      rw [List.count_cons]
      by_cases hzy : z = y <;> simp [hm, ih, hzy]

theorem metTimelineYear_range {m : Meteorite} {y : ℤ}
    (h : metTimelineYear m = some y) : 1900 ≤ y ∧ y ≤ 2025 := by
  cases hd : date4Year (m.date.getD "") with
  | none => simp [metTimelineYear, hd] at h
  | some z =>
    simp only [metTimelineYear, hd] at h
    by_cases hr : 1900 ≤ z ∧ z ≤ 2025
    · rw [if_pos hr] at h
      injection h with h'
      exact h' ▸ hr
    · rw [if_neg hr] at h
      cases h

theorem ufoYearKV_range {u : UfoYearEntry} {y : ℤ}
    (h : (ufoYearKV u).map Prod.fst = some y) : 1900 ≤ y ∧ y ≤ 2025 := by
  cases hu : u.year with
  | none => simp [ufoYearKV, hu] at h
  | some jv =>
    cases jv with
    | int n =>
      simp only [ufoYearKV, hu] at h
      by_cases hn : ¬n = 0 ∧ 1900 ≤ n ∧ n ≤ 2025
      · rw [if_pos hn] at h
        simp at h
        exact h ▸ hn.2
      · rw [if_neg hn] at h
        simp at h
    | str s => simp [ufoYearKV, hu] at h

/-- C1.  When the temporal aggregator completes, every timeline row's
`meteorite_falls` is the number of input meteorites whose all-digit 4-character
date prefix equals the row's year (within [1900, 2025]), its `ufo_sightings`
is the count written for that year by the last qualifying UFO-by-year entry
(0 when no entry qualifies), rows carry only years in [1900, 2025], are
strictly ascending by year, and the year set is exactly the years present in
at least one source. -/
theorem build_temporal_comparison_spec (ms : List Meteorite) (ufos : List UfoYearEntry)
    (tl : List TimelineEntry) (h : build_temporal_comparison ms ufos = .ok tl) :
    (∀ e ∈ tl,
       e.meteorite_falls = ms.countP (fun m => decide (metTimelineYear m = some e.year)) ∧
       e.ufo_sightings = (lastWrite ufoYearKV ufos e.year).getD 0 ∧
       1900 ≤ e.year ∧ e.year ≤ 2025) ∧
    (tl.map TimelineEntry.year).Pairwise (· < ·) ∧
    (∀ y : ℤ, y ∈ tl.map TimelineEntry.year ↔
       ((∃ m ∈ ms, metTimelineYear m = some y) ∨
        ∃ u ∈ ufos, (ufoYearKV u).map Prod.fst = some y)) := by
  cases huy : ufo_years ufos with
  | error u =>
    rw [build_temporal_comparison] at h
    rw [huy] at h
    cases h
  | ok uy =>
    have hbridge := ufo_years_ok huy
    subst hbridge
    rw [build_temporal_comparison] at h
    rw [huy] at h
    injection h with h'
    subst h'
    have hmemY : ∀ y : ℤ,
        y ∈ ((met_by_year ms).dedup ++ dkeys (kvFold ufoYearKV ufos)).dedup.mergeSort
              (fun a b => decide (a ≤ b)) ↔
          ((∃ m ∈ ms, metTimelineYear m = some y) ∨
           ∃ u ∈ ufos, (ufoYearKV u).map Prod.fst = some y) := by
      intro y
      rw [List.mem_mergeSort, List.mem_dedup, List.mem_append, List.mem_dedup,
        met_by_year, List.mem_filterMap, dkeys, List.mem_dedup, kvFold_mem_keys]
    have hyears :
        (((met_by_year ms).dedup ++ dkeys (kvFold ufoYearKV ufos)).dedup.mergeSort
              (fun a b => decide (a ≤ b)) |>.map
            (fun y => (⟨y, (met_by_year ms).count y,
              (dget (kvFold ufoYearKV ufos) y).getD 0⟩ : TimelineEntry))).map
          TimelineEntry.year =
        ((met_by_year ms).dedup ++ dkeys (kvFold ufoYearKV ufos)).dedup.mergeSort
          (fun a b => decide (a ≤ b)) := by
      rw [List.map_map]
      exact List.map_id _
    refine ⟨?_, ?_, ?_⟩
    · intro e he
      obtain ⟨y, hy, rfl⟩ := List.mem_map.mp he
      refine ⟨met_count ms y, ?_, ?_⟩
      · show (dget (kvFold ufoYearKV ufos) y).getD 0 = (lastWrite ufoYearKV ufos y).getD 0
        exact congrArg (fun o => o.getD 0) (kvFold_dget ufoYearKV ufos y)
      · show 1900 ≤ y ∧ y ≤ 2025
        rcases (hmemY y).mp hy with ⟨m, _, hmy⟩ | ⟨u, _, huv⟩
        · exact metTimelineYear_range hmy
        · exact ufoYearKV_range huv
    · rw [hyears]
      have htr : ∀ a b c : ℤ, decide (a ≤ b) = true → decide (b ≤ c) = true →
          decide (a ≤ c) = true := by
        intro a b c hab hbc
        rw [decide_eq_true_eq] at hab hbc ⊢
        omega
      have hto : ∀ a b : ℤ, (decide (a ≤ b) || decide (b ≤ a)) = true := by
        intro a b
        rcases le_total a b with hab | hba
        · simp [hab]
        · simp [hba]
      have hs := List.sorted_mergeSort htr hto
        ((met_by_year ms).dedup ++ dkeys (kvFold ufoYearKV ufos)).dedup
      have hle : (((met_by_year ms).dedup ++ dkeys (kvFold ufoYearKV ufos)).dedup.mergeSort
          (fun a b => decide (a ≤ b))).Pairwise (· ≤ ·) :=
        hs.imp (fun hab => by simpa using hab)
      have hnod : (((met_by_year ms).dedup ++ dkeys (kvFold ufoYearKV ufos)).dedup.mergeSort
          (fun a b => decide (a ≤ b))).Nodup :=
        ((List.mergeSort_perm _ _).nodup_iff).mpr (List.nodup_dedup _)
      exact List.Sorted.lt_of_le hle hnod
    · intro y
      rw [hyears]
      exact hmemY y

/-- Witness for C1: one meteorite dated 1969-03-15 and one UFO entry for the
integer year 1969 with count 5 yield the single row (1969, 1, 5), on which the
spec is instantiated. -/
theorem build_temporal_comparison_spec_witness :
    (([⟨1969, 1, 5⟩] : List TimelineEntry).map TimelineEntry.year).Pairwise (· < ·) ∧
    ((1969 : ℤ) ∈ ([⟨1969, 1, 5⟩] : List TimelineEntry).map TimelineEntry.year ↔
       ((∃ m ∈ [(⟨none, some "1969-03-15", none, none, none, none, none⟩ : Meteorite)],
           metTimelineYear m = some 1969) ∨
        ∃ u ∈ [(⟨some (.int 1969), some 5⟩ : UfoYearEntry)],
           (ufoYearKV u).map Prod.fst = some 1969)) := by
  have h : build_temporal_comparison
      [(⟨none, some "1969-03-15", none, none, none, none, none⟩ : Meteorite)]
      [(⟨some (.int 1969), some 5⟩ : UfoYearEntry)] = .ok [⟨1969, 1, 5⟩] := by
    have hu : ufo_years [(⟨some (.int 1969), some 5⟩ : UfoYearEntry)] =
        .ok [((1969 : ℤ), (5 : ℤ))] := rfl
    simp only [build_temporal_comparison, hu]
    have hd : ((met_by_year
        [(⟨none, some "1969-03-15", none, none, none, none, none⟩ : Meteorite)]).dedup ++
        dkeys [((1969 : ℤ), (5 : ℤ))]).dedup = [(1969 : ℤ)] := rfl
    rw [hd, List.mergeSort_singleton]
    rfl
  have hs := build_temporal_comparison_spec
    [(⟨none, some "1969-03-15", none, none, none, none, none⟩ : Meteorite)]
    [(⟨some (.int 1969), some 5⟩ : UfoYearEntry)] [⟨1969, 1, 5⟩] h
  exact ⟨hs.2.1, hs.2.2 1969⟩

/-- C5 exhibit: a UFO-by-year entry whose year is the numeric string "1950"
makes the year loop raise (Python: `TypeError` at `1900 <= year`), so the
aggregator does not skip it and produces no timeline. -/
theorem ufo_year_string_raises :
    ufo_years [(⟨some (.str "1950"), some 3⟩ : UfoYearEntry)] = .error () ∧
    build_temporal_comparison [] [(⟨some (.str "1950"), some 3⟩ : UfoYearEntry)] =
      .error () := by
  constructor
  · rfl
  · rfl

/-- C8.  Duplicate keys overwrite: a lookup in the year dict (when the loop
completes) and in the state dict answers with the count of the LAST entry
writing that key; a UFO-by-state entry whose state field is not exactly 2
characters is skipped (appending it changes nothing); and the output state
table reports exactly the last qualifying entry's count. -/
theorem last_write_wins_spec (uyl : List UfoYearEntry) (usl : List UfoStateEntry) :
    (∀ d, ufo_years uyl = .ok d → ∀ k : ℤ, dget d k = lastWrite ufoYearKV uyl k) ∧
    (∀ s : String, dget (ufo_states usl) s = lastWrite ufoStateKV usl s) ∧
    (∀ e : UfoStateEntry, (e.state.getD "").length ≠ 2 →
      ∀ l : List UfoStateEntry, ufo_states (l ++ [e]) = ufo_states l) ∧
    (∀ (ms : List Meteorite) e, e ∈ (build_geographic_comparison ms usl).1 →
      e.ufo_sightings = (lastWrite ufoStateKV usl e.state).getD 0) := by
  refine ⟨?_, ?_, ?_, ?_⟩
  · intro d hd k
    rw [ufo_years_ok hd]
    exact kvFold_dget ufoYearKV uyl k
  · intro s
    exact kvFold_dget ufoStateKV usl s
  · intro e hlen l
    have hkv : ufoStateKV e = none := by
      rw [ufoStateKV, if_neg]
      intro hc
      exact hlen hc.2
    rw [ufo_states, kvFold, List.foldl_append]
    simp [kvStep, hkv, ufo_states, kvFold]
  · intro ms e he
    simp only [build_geographic_comparison] at he
    obtain ⟨s, hs, rfl⟩ := List.mem_map.mp he
    show (dget (ufo_states usl) s).getD 0 = (lastWrite ufoStateKV usl s).getD 0
    exact congrArg (fun o => o.getD 0) (kvFold_dget ufoStateKV usl s)

/-- Witness for C8: the year 1950 appears twice (counts 1 then 7) and "CA"
appears twice (counts 1 then 5, with a 3-character "CAL" entry skipped in
between); both lookups yield the later count. -/
theorem last_write_wins_spec_witness :
    dget [((1950 : ℤ), (7 : ℤ)), (1950, 1)] 1950 = some 7 ∧
    dget (ufo_states [⟨some "CA", some 1⟩, ⟨some "CAL", some 9⟩, ⟨some "CA", some 5⟩])
      "CA" = some 5 := by
  constructor
  · have h := (last_write_wins_spec
      [(⟨some (.int 1950), some 1⟩ : UfoYearEntry),
       (⟨some (.int 1950), some 7⟩ : UfoYearEntry)] []).1
      [((1950 : ℤ), (7 : ℤ)), (1950, 1)] rfl 1950
    rw [h]
    rfl
  · have h := (last_write_wins_spec []
      [(⟨some "CA", some 1⟩ : UfoStateEntry), ⟨some "CAL", some 9⟩,
       ⟨some "CA", some 5⟩]).2.1 "CA"
    rw [h]
    rfl

/-- C3.  In every output state row the ratio is `round(ufo / met, 1)` exactly
when the meteorite count is positive, and the null sentinel exactly when it is
zero: the division is guarded and never happens with a zero denominator. -/
theorem state_ratio_spec (ms : List Meteorite) (ufos : List UfoStateEntry) :
    ∀ e ∈ (build_geographic_comparison ms ufos).1,
      (0 < e.meteorite_falls →
        e.ufo_per_meteorite =
          some (round1 ((e.ufo_sightings : ℚ) / (e.meteorite_falls : ℚ)))) ∧
      (e.meteorite_falls = 0 → e.ufo_per_meteorite = none) := by
  intro e he
  simp only [build_geographic_comparison] at he
  obtain ⟨s, hs, rfl⟩ := List.mem_map.mp he
  constructor
  · intro hpos
    show (if 0 < (met_by_state ms).count s then
        some (round1 (((dget (ufo_states ufos) s).getD 0 : ℚ) /
          ((met_by_state ms).count s : ℚ)))
      else none) = _
    rw [if_pos hpos]
  · intro hz
    show (if 0 < (met_by_state ms).count s then
        some (round1 (((dget (ufo_states ufos) s).getD 0 : ℚ) /
          ((met_by_state ms).count s : ℚ)))
      else none) = none
    rw [if_neg]
    intro hpos
    have : (met_by_state ms).count s = 0 := hz
    omega

/-- Witness for C3: a state with UFO data but zero meteorites gets the null
sentinel, not 0 or a division result. -/
theorem state_ratio_spec_witness :
    (⟨"CA", 0, 4, none⟩ : StateComparisonEntry).ufo_per_meteorite = none := by
  have hb : (build_geographic_comparison [] [(⟨some "CA", some 4⟩ : UfoStateEntry)]).1 =
      [⟨"CA", 0, 4, none⟩] := by
    simp only [build_geographic_comparison]
    have hd : ((met_by_state []).dedup ++
        dkeys (ufo_states [(⟨some "CA", some 4⟩ : UfoStateEntry)])).dedup = ["CA"] := rfl
    rw [hd, List.mergeSort_singleton]
    rfl
  exact (state_ratio_spec [] [(⟨some "CA", some 4⟩ : UfoStateEntry)]
    ⟨"CA", 0, 4, none⟩ (by rw [hb]; exact List.mem_singleton_self _)).2 rfl

theorem length_filterMap_eq_countP {α β : Type} (f : α → Option β) (l : List α) :
    (l.filterMap f).length = l.countP (fun a => (f a).isSome) := by
  induction l with
  | nil => rfl
  | cons a l ih =>
    rw [List.filterMap_cons, List.countP_cons]
    cases hf : f a <;> simp [hf, ih]

/-- The truthiness filter of the geographic counting loop never drops a
classified state, because every table code is a nonempty string. -/
theorem classifiedState_isSome (m : Meteorite) :
    (classifiedState m).isSome = (assign_us_state m.latitude m.longitude).isSome := by
  rw [classifiedState]
  cases ha : assign_us_state m.latitude m.longitude with
  | none => rfl
  | some s =>
    have hs : s ≠ "" := by
      have hall : ∀ c ∈ stateCentroids.map Prod.fst, c ≠ "" := by decide
      exact hall s (assign_some_mem _ _ _ ha)
    simp [hs]

/-- C9.  The `usMeteoriteCount` returned by the geographic aggregator equals
the number of detail records flagged `is_us`, equivalently the number with a
non-null `us_state`: both views classify records with the same classifier. -/
theorem us_count_consistency (ms : List Meteorite) (ufos : List UfoStateEntry) :
    (build_geographic_comparison ms ufos).2 =
      ((build_meteorite_detail ms).filter (fun r => r.is_us)).length ∧
    (build_geographic_comparison ms ufos).2 =
      ((build_meteorite_detail ms).filter (fun r => decide (r.us_state ≠ none))).length := by
  have hbase : (build_geographic_comparison ms ufos).2 =
      ms.countP (fun m => (assign_us_state m.latitude m.longitude).isSome) := by
    show (met_by_state ms).length = _
    rw [met_by_state, length_filterMap_eq_countP]
    congr 1
    funext m
    exact classifiedState_isSome m
  constructor
  · rw [hbase, build_meteorite_detail, ← List.countP_eq_length_filter, List.countP_map]
    congr 1
  · rw [hbase, build_meteorite_detail, ← List.countP_eq_length_filter, List.countP_map]
    congr 1
    funext m
    show (assign_us_state m.latitude m.longitude).isSome =
      decide ((detailRecord m).us_state ≠ none)
    cases ha : assign_us_state m.latitude m.longitude with
    | none => simp [detailRecord, ha]
    | some s => simp [detailRecord, ha]

/-- C4.  The detail builder is 1:1 and order-preserving (`i`-th output is the
record of the `i`-th input); the detail year is the raw 4-digit-prefix parse
with no range restriction; an empty-string (or missing) date is normalized to
null, and a nonempty one is passed through. -/
theorem build_meteorite_detail_spec (ms : List Meteorite) :
    (build_meteorite_detail ms).length = ms.length ∧
    (∀ i : ℕ, (build_meteorite_detail ms)[i]? = (ms[i]?).map detailRecord) ∧
    (∀ m : Meteorite, (detailRecord m).year = date4Year (m.date.getD "") ∧
      (m.date.getD "" = "" → (detailRecord m).date = none) ∧
      (m.date.getD "" ≠ "" → (detailRecord m).date = some (m.date.getD ""))) := by
  refine ⟨?_, ?_, ?_⟩
  · rw [build_meteorite_detail, List.length_map]
  · intro i
    rw [build_meteorite_detail, List.getElem?_map]
  · intro m
    refine ⟨rfl, ?_, ?_⟩
    · intro hd
      show (if m.date.getD "" ≠ "" then some (m.date.getD "") else none) = none
      rw [if_neg]
      intro hne
      exact hne hd
    · intro hd
      show (if m.date.getD "" ≠ "" then some (m.date.getD "") else none) =
        some (m.date.getD "")
      rw [if_pos hd]

/-- Witness for C4: a pre-1900 date is kept in the detail year, and an
empty-string date becomes null. -/
theorem build_meteorite_detail_spec_witness :
    (build_meteorite_detail
      [(⟨none, some "1850-01-01", none, none, none, none, none⟩ : Meteorite)]).length = 1 ∧
    (detailRecord (⟨none, some "1850-01-01", none, none, none, none, none⟩ : Meteorite)).year =
      some 1850 ∧
    (detailRecord (⟨none, some "", none, none, none, none, none⟩ : Meteorite)).date = none := by
  refine ⟨?_, ?_, ?_⟩
  · rw [(build_meteorite_detail_spec
      [(⟨none, some "1850-01-01", none, none, none, none, none⟩ : Meteorite)]).1]
    rfl
  · rw [((build_meteorite_detail_spec []).2.2
      (⟨none, some "1850-01-01", none, none, none, none, none⟩ : Meteorite)).1]
    rfl
  · exact ((build_meteorite_detail_spec []).2.2
      (⟨none, some "", none, none, none, none, none⟩ : Meteorite)).2.1 rfl

/-- C10.  In the assembled dataset each `record_counts` field equals the
length of the correspondingly named top-level array. -/
theorem record_counts_spec (ms : List Meteorite) (uyl : List UfoYearEntry)
    (usl : List UfoStateEntry) (ds : Dataset)
    (h : assemble_dataset ms uyl usl = .ok ds) :
    ds.record_counts.temporal_comparison = ds.temporal_comparison.length ∧
    ds.record_counts.state_comparison = ds.state_comparison.length ∧
    ds.record_counts.meteorite_detail = ds.meteorite_detail.length := by
  cases htc : build_temporal_comparison ms uyl with
  | error u =>
    rw [assemble_dataset, htc] at h
    cases h
  | ok timeline =>
    rw [assemble_dataset, htc] at h
    injection h with h'
    subst h'
    exact ⟨rfl, rfl, rfl⟩

/-- Witness for C10: the empty-input dataset, assembled and checked. -/
theorem record_counts_spec_witness :
    (⟨⟨0, 0, 0⟩, [], [], []⟩ : Dataset).record_counts.temporal_comparison =
      (⟨⟨0, 0, 0⟩, [], [], []⟩ : Dataset).temporal_comparison.length := by
  have hu : ufo_years ([] : List UfoYearEntry) = .ok [] := rfl
  have htl : build_temporal_comparison [] [] = .ok [] := by
    simp only [build_temporal_comparison, hu]
    have hd : ((met_by_year []).dedup ++ dkeys ([] : List (ℤ × ℤ))).dedup =
      ([] : List ℤ) := rfl
    rw [hd, List.mergeSort_nil]
    rfl
  have hg : (build_geographic_comparison [] ([] : List UfoStateEntry)).1 = [] := by
    simp only [build_geographic_comparison]
    have hd : ((met_by_state []).dedup ++ dkeys (ufo_states ([] : List UfoStateEntry))).dedup =
      ([] : List String) := rfl
    rw [hd, List.mergeSort_nil]
    rfl
  have hds : assemble_dataset [] [] [] = .ok ⟨⟨0, 0, 0⟩, [], [], []⟩ := by
    simp only [assemble_dataset, htl]
    rw [hg]
    rfl
  exact (record_counts_spec [] [] [] ⟨⟨0, 0, 0⟩, [], [], []⟩ hds).1
